import Mathlib

/-!
Verification of the Edu-Health content safety and moderation pipeline.

This file gives a shallow embedding, in Lean 4, of the moderation service
(keyword blocklist, medical-misinformation regex rules, the `moderate`
orchestrator, `sanitizeText`), the LLM adapter (`callLLM` fallback chain,
`moderateWithLLM`), the safety service (`checkEmergency`), the Flag model's
pre-validate hook, and the feed controller's `calculateScore`, together with
theorems about their behaviour.

Modelling conventions:
* JavaScript strings are modelled as Lean `String`s;
  `String.prototype.includes` is modelled by list-infix containment.
  `toLowerCase` (full Unicode case mapping) and non-Unicode `/i` regex
  canonicalization are modelled by two *different* character folds,
  `jsCharLower` and `regexFold`, because the source semantics differ:
  `toLowerCase` folds U+212A KELVIN SIGN to `k`, while the `/i`
  canonicalization of ECMAScript never folds a non-ASCII code point onto
  an ASCII one.
* Network calls, environment flags and `JSON.parse` are modelled as
  explicit parameters (an `Option`/`Except` value describes the outcome of
  the call; `none`/`error` models a thrown exception).
* JavaScript numbers are modelled as `ℚ` where fractional weights occur
  (feed scoring, detection scores) and as `Nat` for the small integer
  severities.
* Persistence of a Flag is modelled by returning the list of flag records
  the call would create; the mongoose write itself is effect-free in the
  model (its failure is swallowed by `logFlag` in the source).
-/

set_option autoImplicit false

namespace EduHealth

/-- Characterwise model of the Unicode lowercase mapping underlying
`String.prototype.toLowerCase`: ASCII uppercase letters fold to ASCII
lowercase, and U+212A KELVIN SIGN folds to `k` — the one code point whose
one-character lowercase crosses the ASCII barrier into a letter of the
(pure-ASCII) keyword tables.  Every other code point is modelled as
fixed, which leaves all keyword comparisons in this file unchanged: real
`toLowerCase` maps every other non-ASCII code point either to a
non-ASCII code point, or (for U+0130) to `i` followed by a combining dot
that interrupts any ASCII keyword occurrence, and the keyword tables are
pure ASCII or uncased Devanagari. -/
def jsCharLower (c : Char) : Char :=
  if 'A' ≤ c ∧ c ≤ 'Z' then Char.ofNat (c.toNat + 32)
  else if c.toNat = 0x212A then 'k'
  else c

/-- Model of JavaScript `String.prototype.toLowerCase` (`jsCharLower`
applied characterwise). -/
def jsToLower (s : String) : String := ⟨s.data.map jsCharLower⟩

/-- Characterwise model of matching under a *non-Unicode* `/i` regex
against a lowercase-ASCII pattern.  ECMAScript canonicalizes both sides
with `Canonicalize`, which uppercases but never lets a code point at or
above U+0080 canonicalize to one below U+0080 (the "ASCII barrier") — in
particular `/k/i` does *not* match U+212A KELVIN SIGN, although
`toLowerCase` folds it to `k`.  Comparing `Canonicalize` values against
an ASCII pattern letter is therefore equivalent to folding the text
character with this ASCII-only lowercase map and comparing it with the
lowercase pattern letter: non-ASCII characters stay non-ASCII on both
accounts and can never equal a pattern letter. -/
def regexFold (c : Char) : Char :=
  if 'A' ≤ c ∧ c ≤ 'Z' then Char.ofNat (c.toNat + 32) else c

/-- `regexFold` applied characterwise. -/
def regexFoldL (l : List Char) : List Char := l.map regexFold

/-- Model of JavaScript `haystack.includes(needle)`: substring containment. -/
def strContains (s pat : String) : Bool := decide (pat.data <:+: s.data)

/-- The ASCII apostrophe character (U+0027), used to build keyword strings
that contain an apostrophe in the source. -/
def aposC : Char := Char.ofNat 39

/-- The ASCII apostrophe as a one-character string. -/
def aposS : String := String.singleton aposC

/-! ### moderation.service.js : keyword blocklist -/

/-- `BLOCKLIST.severe` from moderation.service.js. -/
def BLOCKLIST_severe : List String :=
  ["kill yourself", "go die", "suicide method",
   "how to make bomb", "how to poison",
   "child abuse", "child porn"]

/-- `BLOCKLIST.moderate` from moderation.service.js. -/
def BLOCKLIST_moderate : List String :=
  ["fake medicine", "miracle cure", "doctors hate this",
   "guaranteed weight loss", "instant cure"]

/-- `BLOCKLIST.spam` from moderation.service.js. -/
def BLOCKLIST_spam : List String :=
  ["click here now", "limited time offer", "act now",
   "congratulations you won", "nigerian prince"]

/-- Result shape of `checkBlocklist`. -/
structure BlocklistResult where
  blocked : Bool
  flagged : Bool
  severity : Nat
  reasons : List String
deriving Repr, DecidableEq

/-- Model of `checkBlocklist(text)`: lowercases the text, then walks the
severe, moderate and spam keyword lists in order, pushing one templated
reason string per matched keyword and updating the running maximum
severity (severe sets it to 10, moderate takes `max` with 7, spam `max`
with 5). -/
def checkBlocklist (text : String) : BlocklistResult :=
  let lowerText := jsToLower text
  let s1 := BLOCKLIST_severe.foldl
    (fun acc keyword =>
      if strContains lowerText keyword then
        (acc.1 ++ ["Blocked keyword detected: severe content"], 10)
      else acc)
    (([] : List String), (0 : Nat))
  let s2 := BLOCKLIST_moderate.foldl
    (fun acc keyword =>
      if strContains lowerText keyword then
        (acc.1 ++ ["Potentially misleading health claim"], max acc.2 7)
      else acc)
    s1
  let s3 := BLOCKLIST_spam.foldl
    (fun acc keyword =>
      if strContains lowerText keyword then
        (acc.1 ++ ["Spam patterns detected"], max acc.2 5)
      else acc)
    s2
  { blocked := decide (7 ≤ s3.2)
    flagged := decide (5 ≤ s3.2)
    severity := s3.2
    reasons := s3.1 }

end EduHealth

namespace EduHealth

/-! ### Generic lemmas about the keyword-tier folds -/

theorem foldl_kw_set_fst (p : String → Bool) (c : String) :
    ∀ (l : List String) (r : List String) (m : Nat),
      (l.foldl (fun acc kw => if p kw then (acc.1 ++ [c], (10 : Nat)) else acc) (r, m)).1
        = r ++ (l.filter p).map (fun _ => c) := by
  intro l
  induction l with
  | nil => intro r m; simp
  | cons k l ih =>
    intro r m
    by_cases hk : p k
    · simp only [List.foldl_cons, hk, if_true, List.filter_cons_of_pos, List.map_cons]
      rw [ih]
      simp
    · simp only [List.foldl_cons, hk, if_false, Bool.false_eq_true, List.filter_cons_of_neg,
        not_false_iff]
      exact ih r m

theorem foldl_kw_set_snd (p : String → Bool) (c : String) :
    ∀ (l : List String) (r : List String) (m : Nat),
      (l.foldl (fun acc kw => if p kw then (acc.1 ++ [c], (10 : Nat)) else acc) (r, m)).2
        = if l.any p then 10 else m := by
  intro l
  induction l with
  | nil => intro r m; simp
  | cons k l ih =>
    intro r m
    by_cases hk : p k
    · simp only [List.foldl_cons, hk, if_true, List.any_cons, Bool.true_or]
      rw [ih]
      split <;> rfl
    · simp only [List.foldl_cons, hk, if_false, List.any_cons, Bool.false_eq_true]
      rw [ih]
      simp [hk]

theorem foldl_kw_max_fst (p : String → Bool) (c : String) (v : Nat) :
    ∀ (l : List String) (r : List String) (m : Nat),
      (l.foldl (fun acc kw => if p kw then (acc.1 ++ [c], max acc.2 v) else acc) (r, m)).1
        = r ++ (l.filter p).map (fun _ => c) := by
  intro l
  induction l with
  | nil => intro r m; simp
  | cons k l ih =>
    intro r m
    by_cases hk : p k
    · simp only [List.foldl_cons, hk, if_true, List.filter_cons_of_pos, List.map_cons]
      rw [ih]
      simp
    · simp only [List.foldl_cons, hk, if_false, Bool.false_eq_true, List.filter_cons_of_neg,
        not_false_iff]
      exact ih r m

theorem foldl_kw_max_snd (p : String → Bool) (c : String) (v : Nat) :
    ∀ (l : List String) (r : List String) (m : Nat),
      (l.foldl (fun acc kw => if p kw then (acc.1 ++ [c], max acc.2 v) else acc) (r, m)).2
        = if l.any p then max m v else m := by
  intro l
  induction l with
  | nil => intro r m; simp
  | cons k l ih =>
    intro r m
    by_cases hk : p k
    · simp only [List.foldl_cons, hk, if_true, List.any_cons, Bool.true_or]
      rw [ih]
      split <;> simp [Nat.max_assoc]
    · simp only [List.foldl_cons, hk, if_false, List.any_cons, Bool.false_eq_true]
      rw [ih]
      simp [hk]

/-- Closed form for the reasons list of `checkBlocklist`: one templated
string per matched keyword, severe tier first, then moderate, then spam. -/
theorem checkBlocklist_reasons (text : String) :
    (checkBlocklist text).reasons
      = (BLOCKLIST_severe.filter (fun kw => strContains (jsToLower text) kw)).map
          (fun _ => "Blocked keyword detected: severe content")
        ++ (BLOCKLIST_moderate.filter (fun kw => strContains (jsToLower text) kw)).map
          (fun _ => "Potentially misleading health claim")
        ++ (BLOCKLIST_spam.filter (fun kw => strContains (jsToLower text) kw)).map
          (fun _ => "Spam patterns detected") := by
  unfold checkBlocklist
  simp only []
  rw [foldl_kw_max_fst, foldl_kw_max_fst, foldl_kw_set_fst]
  simp [List.append_assoc]

/-- Closed form for the severity of `checkBlocklist`. -/
theorem checkBlocklist_severity (text : String) :
    (checkBlocklist text).severity
      = (if BLOCKLIST_spam.any (fun kw => strContains (jsToLower text) kw) then
           max (if BLOCKLIST_moderate.any (fun kw => strContains (jsToLower text) kw) then
                  max (if BLOCKLIST_severe.any (fun kw => strContains (jsToLower text) kw)
                       then 10 else 0) 7
                else
                  (if BLOCKLIST_severe.any (fun kw => strContains (jsToLower text) kw)
                   then 10 else 0)) 5
         else
           (if BLOCKLIST_moderate.any (fun kw => strContains (jsToLower text) kw) then
              max (if BLOCKLIST_severe.any (fun kw => strContains (jsToLower text) kw)
                   then 10 else 0) 7
            else
              (if BLOCKLIST_severe.any (fun kw => strContains (jsToLower text) kw)
               then 10 else 0))) := by
  unfold checkBlocklist
  simp only []
  rw [foldl_kw_max_snd, foldl_kw_max_snd, foldl_kw_set_snd]

/-- `blocked` is severity ≥ 7. -/
theorem checkBlocklist_blocked (text : String) :
    (checkBlocklist text).blocked = decide (7 ≤ (checkBlocklist text).severity) := rfl

/-- `flagged` is severity ≥ 5. -/
theorem checkBlocklist_flagged (text : String) :
    (checkBlocklist text).flagged = decide (5 ≤ (checkBlocklist text).severity) := rfl

end EduHealth

namespace EduHealth

/-! ### moderation.service.js : medical misinformation detector

The source tests five case-insensitive (non-Unicode `/i`) regexes against
the text.  Each regex is embedded as a deterministic matcher over the
`regexFold`ed character list — the fold equivalent to `Canonicalize`
comparison against the lowercase-ASCII pattern letters; `existsAt`
quantifies the matcher over every start position, which is the semantics
of `RegExp.prototype.test`.  The deterministic matchers are equivalent to
the source regexes because in each pattern the token following `s?` or
`\s+` cannot consume the optional `s`, respectively a whitespace
character, so maximal munch is exact. -/

/-- JavaScript `\s` character class (whitespace as matched by RegExp). -/
def jsWS (c : Char) : Bool :=
  c = ' ' || c = '\t' || c = '\n' || c = '\r' ||
  c = Char.ofNat 11 || c = Char.ofNat 12 || c = Char.ofNat 160 ||
  c = Char.ofNat 0x1680 || (0x2000 ≤ c.toNat && c.toNat ≤ 0x200a) ||
  c = Char.ofNat 0x2028 || c = Char.ofNat 0x2029 || c = Char.ofNat 0x202f ||
  c = Char.ofNat 0x205f || c = Char.ofNat 0x3000 || c = Char.ofNat 0xfeff

/-- JavaScript `.` in a regex without the `s` flag: any character except a
line terminator. -/
def jsDot (c : Char) : Bool :=
  !(c = '\n' || c = '\r' || c = Char.ofNat 0x2028 || c = Char.ofNat 0x2029)

/-- Consume a literal word; return the rest of the input on success. -/
def matchLit (w s : List Char) : Option (List Char) :=
  if w.isPrefixOf s then some (s.drop w.length) else none

/-- Consume one optional character (regex `c?`). -/
def matchOpt (c : Char) (s : List Char) : List Char :=
  match s with
  | [] => []
  | x :: xs => if x = c then xs else x :: xs

/-- Consume one-or-more whitespace characters (regex `\s+`), maximally. -/
def matchSpaces (s : List Char) : Option (List Char) :=
  match s with
  | [] => none
  | c :: cs => if jsWS c then some (cs.dropWhile jsWS) else none

/-- Ordered alternation of literal words (regex `(w1|w2|...)`). -/
def matchFirst (ws : List (List Char)) (s : List Char) : Option (List Char) :=
  match ws with
  | [] => none
  | w :: rest =>
    match matchLit w s with
    | some r => some r
    | none => matchFirst rest s

/-- Regex `.*X`: scan forward over non-terminator characters looking for a
position where `stop` holds. -/
def scanStar (stop : List Char → Bool) : List Char → Bool
  | [] => stop []
  | c :: cs => stop (c :: cs) || (jsDot c && scanStar stop cs)

/-- Does the position matcher `p` succeed at some start position? -/
def existsAt (p : List Char → Bool) : List Char → Bool
  | [] => p []
  | c :: cs => p (c :: cs) || existsAt p cs

/-- The characters of `doesn't exist`. -/
def doesntExist : List Char := "doesn".data ++ [aposC] ++ "t exist".data

/-- The characters of `don't want`. -/
def dontWant : List Char := "don".data ++ [aposC] ++ "t want".data

/-- Matcher for `/vaccines?\s+(cause|causes)\s+(autism|death)/i` at a
position. -/
def p1At (s : List Char) : Bool :=
  (do
    let r1 ← matchLit "vaccine".data s
    let r2 := matchOpt 's' r1
    let r3 ← matchSpaces r2
    let r4 ← matchLit "cause".data r3
    let r5 := matchOpt 's' r4
    let r6 ← matchSpaces r5
    matchFirst ["autism".data, "death".data] r6).isSome

/-- Matcher for `/covid.*(hoax|fake|doesn't exist)/i` at a position. -/
def p2At (s : List Char) : Bool :=
  match matchLit "covid".data s with
  | some r => scanStar (fun t => (matchFirst ["hoax".data, "fake".data, doesntExist] t).isSome) r
  | none => false

/-- Matcher for `/cure\s+(cancer|diabetes|hiv)\s+naturally/i` at a
position. -/
def p3At (s : List Char) : Bool :=
  (do
    let r1 ← matchLit "cure".data s
    let r2 ← matchSpaces r1
    let r3 ← matchFirst ["cancer".data, "diabetes".data, "hiv".data] r2
    let r4 ← matchSpaces r3
    matchLit "naturally".data r4).isSome

/-- Matcher for `/doctors?\s+(hide|hiding|don't want)/i` at a position. -/
def p4At (s : List Char) : Bool :=
  (do
    let r1 ← matchLit "doctor".data s
    let r2 := matchOpt 's' r1
    let r3 ← matchSpaces r2
    matchFirst ["hide".data, "hiding".data, dontWant] r3).isSome

/-- Matcher for `/bleach.*drink|drink.*bleach/i` at a position. -/
def p5At (s : List Char) : Bool :=
  (match matchLit "bleach".data s with
   | some r => scanStar (fun t => (matchLit "drink".data t).isSome) r
   | none => false) ||
  (match matchLit "drink".data s with
   | some r => scanStar (fun t => (matchLit "bleach".data t).isSome) r
   | none => false)

/-- Result shape of `checkMedicalMisinformation`. -/
structure MisinfoResult where
  flagged : Bool
  reasons : List String
deriving Repr, DecidableEq

/-- The `misinfoPatterns` table: matcher and human-readable reason. -/
def misinfoPatterns : List ((List Char → Bool) × String) :=
  [(p1At, "Anti-vaccine misinformation"),
   (p2At, "COVID-19 misinformation"),
   (p3At, "Unproven cure claims"),
   (p4At, "Medical conspiracy theory"),
   (p5At, "Dangerous remedy")]

/-- Model of `checkMedicalMisinformation(text)`: test each pattern against
the text (case-insensitively in the regex sense, modelled by matching the
`regexFold`ed text against the lowercase pattern literals), collecting
one reason per matched rule. -/
def checkMedicalMisinformation (text : String) : MisinfoResult :=
  let l := regexFoldL text.data
  let res := misinfoPatterns.foldl
    (fun acc pr => if existsAt pr.1 l then (true, acc.2 ++ [pr.2]) else acc)
    (false, ([] : List String))
  { flagged := res.1, reasons := res.2 }

/-! ### moderation.service.js : the `moderate` orchestrator -/

/-- One persisted Flag record, as assembled by `logFlag` (which adds
`flaggedBy: 'system'` to the data given by `moderate`). -/
structure FlagRecord where
  contentId : Option String
  conversationId : Option String
  userId : Option String
  reason : String
  reasonDetails : String
  severity : Nat
  textSnippet : String
  detectionMethod : String
  detectionScore : Option ℚ
  flaggedBy : String
deriving Repr, DecidableEq

/-- Verdict returned by `moderate` (action is a raw string, as in the
source, since the remote classifier's action is passed through). -/
structure Verdict where
  action : String
  reasons : List String
  severity : Nat
  method : String
deriving Repr, DecidableEq

/-- The options object taken by `moderate`. -/
structure ModOptions where
  userId : Option String
  contentId : Option String
  conversationId : Option String
  useLLM : Bool
deriving Repr, DecidableEq

/-- The verdict of the remote classifier, i.e. the value returned by
`moderateWithLLM` (a parsed JSON object with these three fields). -/
structure LLMVerdict where
  action : String
  reasons : List String
  severity : Nat
deriving Repr, DecidableEq

/-- Result of one `moderate` call: the verdict returned to the caller, the
Flag records that were persisted during the call, and whether the remote
classifier was invoked. -/
structure ModerateOutcome where
  verdict : Verdict
  flags : List FlagRecord
  llmInvoked : Bool
deriving Repr, DecidableEq

/-- Model of `moderate(text, options)`.

`enabled` models `process.env.MODERATION_ENABLED === 'true'`; `llm` models
the outcome of `await moderateWithLLM(text)` (`some v` = resolved with
`v`, `none` = threw, which the source catches and falls through). -/
def moderate (text : String) (opts : ModOptions) (enabled : Bool)
    (llm : Option LLMVerdict) : ModerateOutcome :=
  let blocklistResult := checkBlocklist text
  if blocklistResult.blocked then
    { verdict := { action := "DENY", reasons := blocklistResult.reasons,
                   severity := blocklistResult.severity, method := "keyword" }
      flags := [{ contentId := opts.contentId, conversationId := opts.conversationId,
                  userId := opts.userId, reason := "harmful_content",
                  reasonDetails := String.intercalate "; " blocklistResult.reasons,
                  severity := blocklistResult.severity, textSnippet := text.take 200,
                  detectionMethod := "keyword", detectionScore := none,
                  flaggedBy := "system" }]
      llmInvoked := false }
  else
    let misinfoResult := checkMedicalMisinformation text
    if misinfoResult.flagged then
      { verdict := { action := "FLAG", reasons := misinfoResult.reasons,
                     severity := 7, method := "keyword" }
        flags := [{ contentId := opts.contentId, conversationId := opts.conversationId,
                    userId := opts.userId, reason := "medical_misinformation",
                    reasonDetails := String.intercalate "; " misinfoResult.reasons,
                    severity := 7, textSnippet := text.take 200,
                    detectionMethod := "keyword", detectionScore := none,
                    flaggedBy := "system" }]
        llmInvoked := false }
    else
      let step4 : Bool → ModerateOutcome := fun invoked =>
        if blocklistResult.flagged then
          { verdict := { action := "FLAG", reasons := blocklistResult.reasons,
                         severity := blocklistResult.severity, method := "keyword" }
            flags := []
            llmInvoked := invoked }
        else
          { verdict := { action := "ALLOW", reasons := [], severity := 0,
                         method := "combined" }
            flags := []
            llmInvoked := invoked }
      if opts.useLLM && enabled then
        match llm with
        | some llmResult =>
          { verdict := { action := llmResult.action, reasons := llmResult.reasons,
                         severity := llmResult.severity, method := "ml_model" }
            flags :=
              if llmResult.action = "DENY" || llmResult.action = "FLAG" then
                [{ contentId := opts.contentId, conversationId := opts.conversationId,
                   userId := opts.userId, reason := "harmful_content",
                   reasonDetails := String.intercalate "; " llmResult.reasons,
                   severity := llmResult.severity, textSnippet := text.take 200,
                   detectionMethod := "ml_model",
                   detectionScore := some ((llmResult.severity : ℚ) / 10),
                   flaggedBy := "system" }]
              else []
            llmInvoked := true }
        | none => step4 true
      else step4 false

/-! ### moderation.service.js : `sanitizeText` -/

/-- The replacement token `[removed]` as a character list. -/
def repL : List Char := "[removed]".data

/-- Model of `s.replace(new RegExp(keyword, 'gi'), '[removed]')` for a
(metacharacter-free, lowercase-ASCII) keyword: scan left to right; at
each position, if the keyword matches under non-Unicode `/i`
canonicalization (modelled by `regexFold`, which — unlike `toLowerCase`
— never folds a non-ASCII character onto an ASCII keyword letter), emit
`[removed]` and skip the match, otherwise emit the character. -/
def replCI (kw : List Char) : List Char → List Char
  | [] => []
  | c :: cs =>
    if kw.isPrefixOf (regexFoldL (c :: cs)) then
      repL ++ replCI kw (cs.drop (kw.length - 1))
    else
      c :: replCI kw cs
termination_by s => s.length
decreasing_by
  · simp only [List.length_drop, List.length_cons]
    omega
  · simp only [List.length_cons]
    omega

/-- Model of `sanitizeText(text)`: fold the severe and moderate keyword
lists over the text, replacing each occurrence with `[removed]`. -/
def sanitizeText (text : String) : String :=
  ⟨(BLOCKLIST_severe ++ BLOCKLIST_moderate).foldl
    (fun sanitized keyword => replCI keyword.data sanitized) text.data⟩

end EduHealth

namespace EduHealth

/-! ### llm.adapter.js -/

/-- The `EMERGENCY_MESSAGE` template literal of llm.adapter.js. -/
def EMERGENCY_MESSAGE : String :=
  "\n\n🚨 **EMERGENCY**: If you or someone else is in immediate danger, please call emergency services immediately:\n- India: 112 (Emergency) | 108 (Ambulance)\n- For mental health crisis: iCall - 9152987821"

/-- The `HEALTH_DISCLAIMER` template literal of llm.adapter.js. -/
def HEALTH_DISCLAIMER : String :=
  "\n\n⚠️ **Health Disclaimer**: This information is for educational purposes only and should not replace professional medical advice. Please consult a qualified healthcare provider for any health concerns."

/-- The fixed fallback text returned by `callLLM` when all providers
fail. -/
def FALLBACK_TEXT : String :=
  "I apologize, but I" ++ aposS ++ "m unable to process your request at the moment. Please try again later or consult a healthcare professional for health-related questions.\n\n⚠️ **Tip**: For emergencies, call 112 (India) immediately."

/-- The `emergencyKeywords` list of llm.adapter.js (`isEmergency`). -/
def emergencyKeywords : List String :=
  ["suicide", "kill myself", "want to die", "end my life",
   "heart attack", "stroke", "can" ++ aposS ++ "t breathe", "severe bleeding",
   "unconscious", "overdose", "emergency",
   "आत्महत्या", "मरना चाहता", "दिल का दौरा", "सांस नहीं"]

/-- The `healthKeywords` list of llm.adapter.js (`isHealthRelated`). -/
def healthKeywords : List String :=
  ["health", "medical", "doctor", "medicine", "symptom", "disease", "illness",
   "pain", "treatment", "diagnosis", "hospital", "sick", "fever", "infection",
   "स्वास्थ्य", "डॉक्टर", "दवा", "बीमारी", "इलाज", "दर्द", "बुखार"]

/-- Model of llm.adapter's `isEmergency(message)`. -/
def isEmergency (message : String) : Bool :=
  emergencyKeywords.any (fun keyword => strContains (jsToLower message) keyword)

/-- Model of llm.adapter's `isHealthRelated(message)`. -/
def isHealthRelated (message : String) : Bool :=
  healthKeywords.any (fun keyword => strContains (jsToLower message) keyword)

/-- The object returned by `callLLM`. -/
structure LLMResponse where
  text : String
  provider : String
  hasDisclaimer : Bool
  isEmergency : Bool
deriving Repr, DecidableEq

/-- The fallback object returned by `callLLM` when no provider produced a
(truthy) response. -/
def FALLBACK_RESPONSE : LLMResponse :=
  { text := FALLBACK_TEXT, provider := "fallback", hasDisclaimer := true,
    isEmergency := false }

/-- First provider in the chain that succeeds, with its response text.
Each entry pairs a provider name with the outcome of invoking it
(`some text` = resolved, `none` = threw; the source logs and continues). -/
def firstSuccess (provs : List (String × Option String)) : Option (String × String) :=
  match provs with
  | [] => none
  | (n, r) :: rest =>
    match r with
    | some t => some (n, t)
    | none => firstSuccess rest

/-- Model of `callLLM(prompt, options)`.

`provs` is the ordered provider list built from configuration, each
paired with the outcome of its invocation; `userMessage` is
`options.userMessage`.  Mirrors the source: first success wins; if no
provider produced a truthy response (all threw, or the first success
returned the empty string, which is falsy), the fixed fallback object is
returned; otherwise the emergency block is prepended for emergency user
messages, else the health disclaimer is appended for health-related
ones. -/
def callLLM (provs : List (String × Option String)) (userMessage : String) : LLMResponse :=
  match firstSuccess provs with
  | none => FALLBACK_RESPONSE
  | some (name, response) =>
    if response = "" then FALLBACK_RESPONSE
    else
      let emergency := isEmergency userMessage
      let healthRelated := isHealthRelated userMessage
      let finalResponse :=
        if emergency then EMERGENCY_MESSAGE ++ "\n\n" ++ response
        else if healthRelated then response ++ HEALTH_DISCLAIMER
        else response
      { text := finalResponse, provider := name,
        hasDisclaimer := healthRelated || emergency, isEmergency := emergency }

/-- Model of `response.match(/\{[\s\S]*\}/)`: the span from the first
opening brace to the last closing brace after it, if any. -/
def extractJsonSpan (s : String) : Option String :=
  match s.data.findIdx? (fun c => c = Char.ofNat 123) with
  | none => none
  | some i =>
    let after := s.data.drop i
    match after.reverse.findIdx? (fun c => c = Char.ofNat 125) with
    | none => none
    | some k => some ⟨after.take (after.length - k)⟩

/-- Model of `moderateWithLLM(text)`.

`callResult` models the outcome of `callRemoteLLM` (`ok response` =
resolved, `error` = threw); `parseJson` models `JSON.parse` on the
extracted span (`none` = `JSON.parse` threw, which lands in the outer
catch).  The function is total: no error propagates to the caller. -/
def moderateWithLLM (callResult : Except Unit String)
    (parseJson : String → Option LLMVerdict) : LLMVerdict :=
  match callResult with
  | Except.error _ => { action := "FLAG", reasons := ["LLM moderation unavailable"], severity := 5 }
  | Except.ok response =>
    match extractJsonSpan response with
    | some span =>
      match parseJson span with
      | some v => v
      | none => { action := "FLAG", reasons := ["LLM moderation unavailable"], severity := 5 }
    | none => { action := "ALLOW", reasons := [], severity := 0 }

/-! ### safety.service.js -/

/-- The `EMERGENCY_KEYWORDS` list of safety.service.js. -/
def EMERGENCY_KEYWORDS : List String :=
  ["suicide", "kill myself", "end my life", "want to die",
   "heart attack", "stroke", "can" ++ aposS ++ "t breathe", "chest pain",
   "overdose", "poisoning", "severe bleeding", "unconscious",
   "emergency", "ambulance", "dying"]

/-- The object returned by `checkEmergency`; on the falsy-input early
return only `isEmergency` is present, modelled by `none` in the other
fields. -/
structure EmergencyResult where
  isEmergency : Bool
  keywords : Option (List String)
  severity : Option String
deriving Repr, DecidableEq

/-- The keywords of `EMERGENCY_KEYWORDS` matched in `text`
(case-insensitive substring containment). -/
def emergencyMatches (text : String) : List String :=
  EMERGENCY_KEYWORDS.filter (fun keyword => strContains (jsToLower text) (jsToLower keyword))

/-- Model of `checkEmergency(text)`: `none` models a `null`/`undefined`
argument; an empty string is falsy and takes the same early return. -/
def checkEmergency (text : Option String) : EmergencyResult :=
  match text with
  | none => { isEmergency := false, keywords := none, severity := none }
  | some t =>
    if t = "" then { isEmergency := false, keywords := none, severity := none }
    else
      let ms := emergencyMatches t
      { isEmergency := decide (0 < ms.length)
        keywords := some ms
        severity := some (if 1 < ms.length then "high"
                          else if ms.length = 1 then "medium" else "low") }

/-! ### Flag.js : the pre-validate hook -/

/-- Model of the `flagSchema.pre('validate')` hook: reject when neither
`contentId` nor `conversationId` is set, otherwise continue. -/
def flagPreValidate (contentId conversationId : Option String) : Except String Unit :=
  if contentId.isNone && conversationId.isNone then
    Except.error "Flag must reference either content or conversation"
  else
    Except.ok ()

/-! ### feed.controller.js : `calculateScore` -/

/-- `content.metrics` (views and likes), modelled with exact rationals. -/
structure ContentMetrics where
  views : ℚ
  likes : ℚ
deriving DecidableEq

/-- The content fields read by `calculateScore`.  `ageInDays` models
`(Date.now() - new Date(content.createdAt)) / 86400000`. -/
structure ContentItem where
  tags : Option (List String)
  type : String
  language : String
  ageInDays : ℚ
  metrics : Option ContentMetrics
  verified : Bool
deriving DecidableEq

/-- The user-preference fields read by `calculateScore`. -/
structure Preferences where
  topics : Option (List String)
  languages : Option (List String)
deriving DecidableEq

def WEIGHTS_TOPIC_MATCH : ℚ := 3
def WEIGHTS_LANGUAGE_MATCH : ℚ := 2
def WEIGHTS_RECENCY : ℚ := 1
def WEIGHTS_POPULARITY : ℚ := 1 / 2
def WEIGHTS_VERIFIED_BONUS : ℚ := 1 / 2

/-- Model of `calculateScore(content, preferences)`, with JavaScript
numbers replaced by exact rationals. -/
def calculateScore (content : ContentItem) (preferences : Preferences) : ℚ :=
  let score1 : ℚ :=
    match preferences.topics, content.tags with
    | some topics, some tags =>
      let matchingTopics := tags.filter (fun tag =>
        topics.any (fun topic =>
          strContains (jsToLower tag) (jsToLower topic) ||
          strContains (jsToLower topic) (jsToLower tag)))
      (matchingTopics.length : ℚ) * WEIGHTS_TOPIC_MATCH
    | _, _ => 0
  let typeMatch :=
    match preferences.topics with
    | some topics => topics.contains content.type
    | none => false
  let score2 := if typeMatch then score1 + WEIGHTS_TOPIC_MATCH else score1
  let langMatch :=
    match preferences.languages with
    | some langs => langs.contains content.language
    | none => false
  let score3 := if langMatch then score2 + WEIGHTS_LANGUAGE_MATCH else score2
  let recencyScore := max 0 (30 - content.ageInDays) / 30
  let score4 := score3 + recencyScore * WEIGHTS_RECENCY
  let views := match content.metrics with | some m => m.views | none => 0
  let likes := match content.metrics with | some m => m.likes | none => 0
  let popularityScore := min 1 ((views + likes * 3) / 1000)
  let score5 := score4 + popularityScore * WEIGHTS_POPULARITY
  if content.verified then score5 + WEIGHTS_VERIFIED_BONUS else score5

end EduHealth

namespace EduHealth

/-! ## Claim C3 : the Flag reference invariant

The spec claims an XOR invariant (exactly one of `contentId`,
`conversationId`).  The hook in Flag.js only rejects when *neither* is
set; a record with both set passes validation. -/

/-- C3 counterexample: a Flag referencing both a content and a
conversation passes the pre-validate hook, so the claimed XOR invariant
(both-set must be rejected) is false. -/
theorem flagPreValidate_both_ok :
    flagPreValidate (some "64a0c0ffee") (some "64a0beefed") = Except.ok () := rfl

/-- C3 amended: the hook enforces an at-least-one invariant, not XOR:
creation fails when neither reference is set, and succeeds whenever at
least one (including both) is set. -/
theorem flagPreValidate_at_least_one (contentId conversationId : Option String) :
    (contentId = none → conversationId = none →
      flagPreValidate contentId conversationId
        = Except.error "Flag must reference either content or conversation") ∧
    ((contentId.isSome || conversationId.isSome) = true →
      flagPreValidate contentId conversationId = Except.ok ()) := by
  constructor
  · intro hc hv
    subst hc; subst hv
    rfl
  · intro h
    cases contentId <;> cases conversationId <;> simp_all [flagPreValidate]

/-- C3 amended, witness: instantiates `flagPreValidate_at_least_one` at
concrete inputs (neither set → error; both set → ok). -/
theorem flagPreValidate_at_least_one_witness :
    flagPreValidate none none
      = Except.error "Flag must reference either content or conversation" ∧
    flagPreValidate (some "64a0c0ffee") (some "64a0beefed") = Except.ok () :=
  ⟨(flagPreValidate_at_least_one none none).1 rfl rfl,
   (flagPreValidate_at_least_one (some "64a0c0ffee") (some "64a0beefed")).2 (by decide)⟩

/-! ## Claim C7 : `moderateWithLLM` failure modes -/

/-- C7: `moderateWithLLM` is total (never propagates an error), and its
two failure paths differ: if the remote call itself errors the result is
`FLAG` severity 5 with the single reason `LLM moderation unavailable`;
if the call succeeds but no `{...}` span is extractable from the reply
the result is `ALLOW` severity 0 with no reasons. -/
theorem moderateWithLLM_failure_modes (parseJson : String → Option LLMVerdict)
    (e : Unit) (response : String) :
    moderateWithLLM (Except.error e) parseJson
      = { action := "FLAG", reasons := ["LLM moderation unavailable"], severity := 5 } ∧
    (extractJsonSpan response = none →
      moderateWithLLM (Except.ok response) parseJson
        = { action := "ALLOW", reasons := [], severity := 0 }) := by
  constructor
  · rfl
  · intro h
    simp [moderateWithLLM, h]

/-- C7 witness: `moderateWithLLM_failure_modes` applied at a concrete
parser, error and brace-free reply. -/
theorem moderateWithLLM_failure_modes_witness :
    moderateWithLLM (Except.error ()) (fun _ => none)
      = { action := "FLAG", reasons := ["LLM moderation unavailable"], severity := 5 } ∧
    moderateWithLLM (Except.ok "This content looks fine to me.") (fun _ => none)
      = { action := "ALLOW", reasons := [], severity := 0 } :=
  ⟨(moderateWithLLM_failure_modes (fun _ => none) () "This content looks fine to me.").1,
   (moderateWithLLM_failure_modes (fun _ => none) () "This content looks fine to me.").2
     (by decide)⟩

/-! ## Claim C8 : `checkEmergency` -/

/-- C8: `checkEmergency` is total and returns `isEmergency = false` on
`null` and on the empty string; with exactly one matched keyword it
returns `isEmergency = true` and severity `medium`; with two or more
matched keywords it returns `isEmergency = true` and severity `high`. -/
theorem checkEmergency_spec (t : String) (hne : t ≠ "") :
    checkEmergency none = { isEmergency := false, keywords := none, severity := none } ∧
    checkEmergency (some "") = { isEmergency := false, keywords := none, severity := none } ∧
    ((emergencyMatches t).length = 1 →
      checkEmergency (some t)
        = { isEmergency := true, keywords := some (emergencyMatches t),
            severity := some "medium" }) ∧
    (2 ≤ (emergencyMatches t).length →
      checkEmergency (some t)
        = { isEmergency := true, keywords := some (emergencyMatches t),
            severity := some "high" }) := by
  refine ⟨rfl, rfl, ?_, ?_⟩
  · intro h1
    simp [checkEmergency, hne, h1]
  · intro h2
    have h0 : 0 < (emergencyMatches t).length := by omega
    have h1 : 1 < (emergencyMatches t).length := by omega
    simp [checkEmergency, hne, h0, h1]

/-- C8 witness: `checkEmergency_spec` applied at `"suicide"` (one match →
medium) and `"heart attack and stroke"` (two matches → high). -/
theorem checkEmergency_spec_witness :
    checkEmergency (some "suicide")
      = { isEmergency := true, keywords := some (emergencyMatches "suicide"),
          severity := some "medium" } ∧
    checkEmergency (some "heart attack and stroke")
      = { isEmergency := true, keywords := some (emergencyMatches "heart attack and stroke"),
          severity := some "high" } :=
  ⟨(checkEmergency_spec "suicide" (by decide)).2.2.1 (by decide),
   (checkEmergency_spec "heart attack and stroke" (by decide)).2.2.2 (by decide)⟩

/-! ## Claim C9 : verified bonus is strictly monotone -/

/-- C9: for two content items identical in every field except `verified`,
and any preference vector, `calculateScore` gives the verified item a
strictly higher score. -/
theorem calculateScore_verified_strictly_higher (tags : Option (List String))
    (ty lang : String) (age : ℚ) (metrics : Option ContentMetrics)
    (prefs : Preferences) :
    calculateScore { tags := tags, type := ty, language := lang, ageInDays := age,
                     metrics := metrics, verified := false } prefs
      < calculateScore { tags := tags, type := ty, language := lang, ageInDays := age,
                         metrics := metrics, verified := true } prefs := by
  simp only [calculateScore, WEIGHTS_VERIFIED_BONUS]
  norm_num

end EduHealth

namespace EduHealth

/-- If some severe-tier keyword occurs in the lowercased text, the
blocklist severity is 10 and the text is blocked. -/
theorem checkBlocklist_severe_hit (text : String)
    (h : ∃ kw ∈ BLOCKLIST_severe, strContains (jsToLower text) kw = true) :
    (checkBlocklist text).severity = 10 ∧ (checkBlocklist text).blocked = true := by
  have hany : BLOCKLIST_severe.any (fun kw => strContains (jsToLower text) kw) = true := by
    rw [List.any_eq_true]
    obtain ⟨kw, hm, hc⟩ := h
    exact ⟨kw, hm, hc⟩
  have hs : (checkBlocklist text).severity = 10 := by
    rw [checkBlocklist_severity, hany]
    cases hmod : BLOCKLIST_moderate.any (fun kw => strContains (jsToLower text) kw) <;>
      cases hspam : BLOCKLIST_spam.any (fun kw => strContains (jsToLower text) kw) <;>
        simp
  refine ⟨hs, ?_⟩
  rw [checkBlocklist_blocked, hs]
  rfl

/-! ## Claim C5 : severe keywords are denied and flagged -/

/-- C5: for all text containing a severe-tier blocklist keyword
(case-insensitive substring match), `moderate` returns `DENY` with
severity 10 and persists exactly one Flag, with
`detectionMethod = keyword` and `flaggedBy = system`. -/
theorem moderate_severe_denies (text : String) (opts : ModOptions) (enabled : Bool)
    (llm : Option LLMVerdict)
    (h : ∃ kw ∈ BLOCKLIST_severe, strContains (jsToLower text) kw = true) :
    (moderate text opts enabled llm).verdict.action = "DENY" ∧
    (moderate text opts enabled llm).verdict.severity = 10 ∧
    ∃ f, (moderate text opts enabled llm).flags = [f] ∧
      f.detectionMethod = "keyword" ∧ f.flaggedBy = "system" := by
  obtain ⟨hs, hb⟩ := checkBlocklist_severe_hit text h
  refine ⟨?_, ?_, ?_⟩
  · simp [moderate, hb]
  · simp [moderate, hb, hs]
  · simp only [moderate, hb, if_true]
    exact ⟨_, rfl, rfl, rfl⟩

/-- C5 witness: `moderate_severe_denies` at the spec's end-to-end
scenario A input. -/
theorem moderate_severe_denies_witness :
    (moderate "How to make bomb at home" ⟨none, none, none, true⟩ false none).verdict.action
      = "DENY" ∧
    (moderate "How to make bomb at home" ⟨none, none, none, true⟩ false none).verdict.severity
      = 10 ∧
    ∃ f, (moderate "How to make bomb at home" ⟨none, none, none, true⟩ false none).flags = [f] ∧
      f.detectionMethod = "keyword" ∧ f.flaggedBy = "system" :=
  moderate_severe_denies "How to make bomb at home" ⟨none, none, none, true⟩ false none
    (by decide)

/-! ## Claim C6 : misinformation short-circuits the classifier -/

/-- C6: for text that is not blocked by the keyword blocklist and matches
a misinformation pattern, `moderate` returns `FLAG`, severity 7, method
`keyword`, and the remote classifier is never invoked — for every value
of the `useLLM` option and the enablement flag. -/
theorem moderate_misinfo_shortcircuits (text : String) (opts : ModOptions) (enabled : Bool)
    (llm : Option LLMVerdict)
    (hb : (checkBlocklist text).blocked = false)
    (hm : (checkMedicalMisinformation text).flagged = true) :
    (moderate text opts enabled llm).verdict.action = "FLAG" ∧
    (moderate text opts enabled llm).verdict.severity = 7 ∧
    (moderate text opts enabled llm).verdict.method = "keyword" ∧
    (moderate text opts enabled llm).llmInvoked = false := by
  refine ⟨?_, ?_, ?_, ?_⟩ <;> simp [moderate, hb, hm]

/-- C6 witness: `moderate_misinfo_shortcircuits` at the spec's scenario C
input, with the classifier enabled and primed to answer `ALLOW`. -/
theorem moderate_misinfo_shortcircuits_witness :
    (moderate "Vaccines cause autism in children" ⟨none, none, none, true⟩ true
        (some ⟨"ALLOW", [], 0⟩)).verdict.action = "FLAG" ∧
    (moderate "Vaccines cause autism in children" ⟨none, none, none, true⟩ true
        (some ⟨"ALLOW", [], 0⟩)).verdict.severity = 7 ∧
    (moderate "Vaccines cause autism in children" ⟨none, none, none, true⟩ true
        (some ⟨"ALLOW", [], 0⟩)).verdict.method = "keyword" ∧
    (moderate "Vaccines cause autism in children" ⟨none, none, none, true⟩ true
        (some ⟨"ALLOW", [], 0⟩)).llmInvoked = false :=
  moderate_misinfo_shortcircuits "Vaccines cause autism in children" ⟨none, none, none, true⟩
    true (some ⟨"ALLOW", [], 0⟩) (by decide) (by decide)

/-! ## Claim C1 : a spam-tier FLAG is overwritten by a classifier ALLOW

The claim asserts the classifier's ALLOW can never overwrite the earlier
spam-tier FLAG.  In the source, step 3 returns the classifier's verdict
unconditionally when it resolves, so an enabled classifier answering
ALLOW does overwrite the spam-tier FLAG. -/

/-- C1 counterexample: `"click here now"` matches only the spam tier
(flagged, severity 5, not blocked) and no misinformation pattern, yet
with the classifier enabled and answering ALLOW, `moderate` returns
ALLOW severity 0, not FLAG severity 5. -/
theorem moderate_spam_llm_allow_counterexample :
    (checkBlocklist "click here now").flagged = true ∧
    (checkBlocklist "click here now").blocked = false ∧
    (checkBlocklist "click here now").severity = 5 ∧
    (checkMedicalMisinformation "click here now").flagged = false ∧
    (moderate "click here now" ⟨none, none, none, true⟩ true
        (some ⟨"ALLOW", [], 0⟩)).verdict.action = "ALLOW" ∧
    (moderate "click here now" ⟨none, none, none, true⟩ true
        (some ⟨"ALLOW", [], 0⟩)).verdict.severity = 0 := by
  decide

/-- C1 amended: for text whose only blocklist matches are spam-tier
(flagged, severity 5, not blocked) and that matches no misinformation
pattern, `moderate` returns FLAG severity 5 when the classifier stage is
skipped (useLLM false or moderation disabled) or when the classifier
throws; but when the classifier is enabled and resolves, its verdict —
including ALLOW — is returned, overwriting the earlier spam-tier FLAG. -/
theorem moderate_spam_flag_cases (text : String) (opts : ModOptions)
    (hf : (checkBlocklist text).flagged = true)
    (hb : (checkBlocklist text).blocked = false)
    (hs : (checkBlocklist text).severity = 5)
    (hm : (checkMedicalMisinformation text).flagged = false) :
    (∀ enabled llm, (opts.useLLM = false ∨ enabled = false) →
      (moderate text opts enabled llm).verdict
        = { action := "FLAG", reasons := (checkBlocklist text).reasons,
            severity := 5, method := "keyword" }) ∧
    ((moderate text opts true none).verdict
        = { action := "FLAG", reasons := (checkBlocklist text).reasons,
            severity := 5, method := "keyword" }) ∧
    (∀ v, opts.useLLM = true →
      (moderate text opts true (some v)).verdict
        = { action := v.action, reasons := v.reasons, severity := v.severity,
            method := "ml_model" }) := by
  refine ⟨?_, ?_, ?_⟩
  · rintro enabled llm (hu | he)
    · simp [moderate, hb, hm, hf, hs, hu]
    · simp [moderate, hb, hm, hf, hs, he]
  · cases hu : opts.useLLM <;> simp [moderate, hb, hm, hf, hs, hu]
  · intro v hu
    simp [moderate, hb, hm, hu]

/-- C1 amended, witness: `moderate_spam_flag_cases` at `"click here
now"`, exercising the classifier-disabled, classifier-threw and
classifier-ALLOW cases. -/
theorem moderate_spam_flag_cases_witness :
    (moderate "click here now" ⟨none, none, none, true⟩ false none).verdict
      = { action := "FLAG", reasons := (checkBlocklist "click here now").reasons,
          severity := 5, method := "keyword" } ∧
    (moderate "click here now" ⟨none, none, none, true⟩ true none).verdict
      = { action := "FLAG", reasons := (checkBlocklist "click here now").reasons,
          severity := 5, method := "keyword" } ∧
    (moderate "click here now" ⟨none, none, none, true⟩ true
        (some ⟨"ALLOW", [], 0⟩)).verdict
      = { action := "ALLOW", reasons := [], severity := 0, method := "ml_model" } := by
  have h := moderate_spam_flag_cases "click here now" ⟨none, none, none, true⟩
    (by decide) (by decide) (by decide) (by decide)
  exact ⟨h.1 false none (Or.inr rfl), h.2.1, h.2.2 ⟨"ALLOW", [], 0⟩ rfl⟩

/-! ## Claim C4 : one reason per keyword, not per tier -/

/-- C4 counterexample: `"kill yourself go die"` matches two severe-tier
keywords and yields two (identical) severe-tier reason strings, not the
single per-tier reason string the claim asserts. -/
theorem checkBlocklist_two_reasons_counterexample :
    (checkBlocklist "kill yourself go die").reasons
      = ["Blocked keyword detected: severe content",
         "Blocked keyword detected: severe content"] ∧
    (checkBlocklist "kill yourself go die").reasons.length ≠ 1 := by
  decide

/-- C4 amended: the reasons list holds one templated reason string per
*matched keyword* (severe tier first, then moderate, then spam), so
several keywords of one tier yield several copies of that tier's reason
string. -/
theorem checkBlocklist_reason_per_matched_keyword (text : String) :
    (checkBlocklist text).reasons
      = (BLOCKLIST_severe.filter (fun kw => strContains (jsToLower text) kw)).map
          (fun _ => "Blocked keyword detected: severe content")
        ++ (BLOCKLIST_moderate.filter (fun kw => strContains (jsToLower text) kw)).map
          (fun _ => "Potentially misleading health claim")
        ++ (BLOCKLIST_spam.filter (fun kw => strContains (jsToLower text) kw)).map
          (fun _ => "Spam patterns detected") :=
  checkBlocklist_reasons text

/-! ## Claim C2 : emergency handling in the `callLLM` fallback chain

The claim asserts the emergency block is prepended and `isEmergency=true`
even when the local fallback is used.  In the source, the fallback object
is returned *before* the emergency check runs and hardcodes
`isEmergency: false`, so the claim fails on the all-providers-failed
path. -/

/-- C2 counterexample: the query `"I want to end my life"` triggers the
emergency detector, yet when every provider fails `callLLM` returns the
fixed fallback object, whose `isEmergency` is `false` and whose text is
not prefixed by the emergency block. -/
theorem callLLM_fallback_counterexample :
    isEmergency "I want to end my life" = true ∧
    callLLM [("groq", none), ("openai", none)] "I want to end my life"
      = FALLBACK_RESPONSE ∧
    FALLBACK_RESPONSE.isEmergency = false :=
  ⟨by decide, rfl, rfl⟩

/-- C2 amended: when some provider succeeds with a nonempty response and
the original user message triggers the emergency detector, the emergency
block is prepended ahead of (not replacing) the provider text and
`isEmergency = true`; but when every provider fails, the fixed local
fallback object is returned, with `isEmergency = false` and no emergency
block. -/
theorem callLLM_emergency_cases (provs : List (String × Option String))
    (msg name t : String)
    (hfs : firstSuccess provs = some (name, t)) (hne : t ≠ "")
    (hem : isEmergency msg = true) :
    callLLM provs msg
      = { text := EMERGENCY_MESSAGE ++ "\n\n" ++ t, provider := name,
          hasDisclaimer := true, isEmergency := true } ∧
    (∀ provs2, firstSuccess provs2 = none → callLLM provs2 msg = FALLBACK_RESPONSE) := by
  constructor
  · simp [callLLM, hfs, hne, hem]
  · intro provs2 h2
    simp [callLLM, h2]

/-- C2 amended, witness: `callLLM_emergency_cases` at the spec's
scenario E query, with one succeeding provider and with no succeeding
provider. -/
theorem callLLM_emergency_cases_witness :
    callLLM [("groq", some "Please reach out for help right away.")] "I want to end my life"
      = { text := EMERGENCY_MESSAGE ++ "\n\n" ++ "Please reach out for help right away.",
          provider := "groq", hasDisclaimer := true, isEmergency := true } ∧
    callLLM [] "I want to end my life" = FALLBACK_RESPONSE := by
  have h := callLLM_emergency_cases [("groq", some "Please reach out for help right away.")]
    "I want to end my life" "groq" "Please reach out for help right away." rfl (by decide)
    (by decide)
  exact ⟨h.1, h.2 [] rfl⟩

end EduHealth

namespace EduHealth

/-! ## Claim C10 apparatus : structure of `replCI`

`runsCI` computes the list of runs of untouched characters that `replCI`
leaves between the inserted `[removed]` blocks; `joinRep` interleaves a
list of runs with `[removed]`.  The key facts: `replCI kw s` is the
`joinRep` of its runs, every run is an untouched infix of `s` (and the
head run a prefix), no run contains a case-insensitive occurrence of the
keyword, and a bracket-free word occurring in a `joinRep` must occur
inside one of the runs. -/
def runsCI (kw : List Char) : List Char → List (List Char)
  | [] => [[]]
  | c :: cs =>
    if kw.isPrefixOf (regexFoldL (c :: cs)) then
      [] :: runsCI kw (cs.drop (kw.length - 1))
    else
      match runsCI kw cs with
      | [] => [[c]]
      | r :: rs => (c :: r) :: rs
termination_by s => s.length
decreasing_by
  · simp only [List.length_drop, List.length_cons]
    omega
  · simp only [List.length_cons]
    omega

def joinRep : List (List Char) → List Char
  | [] => []
  | [r] => r
  | r :: rs => r ++ repL ++ joinRep rs

theorem runsCI_nil (kw : List Char) : runsCI kw [] = [[]] := by
  rw [runsCI]

theorem runsCI_cons_pos (kw : List Char) (c : Char) (cs : List Char)
    (h : kw.isPrefixOf (regexFoldL (c :: cs)) = true) :
    runsCI kw (c :: cs) = [] :: runsCI kw (cs.drop (kw.length - 1)) := by
  rw [runsCI]
  simp [h]

theorem runsCI_cons_neg (kw : List Char) (c : Char) (cs : List Char)
    (h : ¬ kw.isPrefixOf (regexFoldL (c :: cs)) = true)
    (r : List Char) (rs : List (List Char)) (heq : runsCI kw cs = r :: rs) :
    runsCI kw (c :: cs) = (c :: r) :: rs := by
  rw [runsCI]
  simp [h, heq]

theorem replCI_nil (kw : List Char) : replCI kw [] = [] := by
  rw [replCI]

theorem replCI_cons_pos (kw : List Char) (c : Char) (cs : List Char)
    (h : kw.isPrefixOf (regexFoldL (c :: cs)) = true) :
    replCI kw (c :: cs) = repL ++ replCI kw (cs.drop (kw.length - 1)) := by
  rw [replCI]
  simp [h]

theorem replCI_cons_neg (kw : List Char) (c : Char) (cs : List Char)
    (h : ¬ kw.isPrefixOf (regexFoldL (c :: cs)) = true) :
    replCI kw (c :: cs) = c :: replCI kw cs := by
  rw [replCI]
  simp [h]

theorem runsCI_ne_nil (kw s : List Char) : runsCI kw s ≠ [] := by
  match s with
  | [] => simp [runsCI_nil]
  | c :: cs =>
    by_cases h : kw.isPrefixOf (regexFoldL (c :: cs)) = true
    · rw [runsCI_cons_pos kw c cs h]
      simp
    · rcases heq : runsCI kw cs with _ | ⟨r, rs⟩
      · rw [runsCI]
        simp [h, heq]
      · rw [runsCI_cons_neg kw c cs h r rs heq]
        simp

theorem runsCI_head_prefix (kw : List Char) (s : List Char) :
    ∃ r rs, runsCI kw s = r :: rs ∧ r <+: s := by
  induction s using runsCI.induct kw with
  | case1 => exact ⟨[], [], runsCI_nil kw, List.nil_prefix⟩
  | case2 c cs h ih =>
    exact ⟨[], runsCI kw (cs.drop (kw.length - 1)), runsCI_cons_pos kw c cs h,
      List.nil_prefix⟩
  | case3 c cs h hnil ih => exact absurd hnil (runsCI_ne_nil kw cs)
  | case4 c cs h r rs heq ih =>
    obtain ⟨r', rs', heq', hpre⟩ := ih
    rw [heq] at heq'
    injection heq' with h1 h2
    subst h1
    subst h2
    exact ⟨c :: r, rs, runsCI_cons_neg kw c cs h r rs heq,
      List.cons_prefix_cons.mpr ⟨rfl, hpre⟩⟩

theorem runsCI_mem_occursIn (kw : List Char) (s : List Char) :
    ∀ r ∈ runsCI kw s, r <:+: s := by
  induction s using runsCI.induct kw with
  | case1 =>
    intro r hr
    rw [runsCI_nil] at hr
    simp only [List.mem_singleton] at hr
    subst hr
    exact List.nil_infix
  | case2 c cs h ih =>
    intro r hr
    rw [runsCI_cons_pos kw c cs h] at hr
    rcases List.mem_cons.1 hr with rfl | hr'
    · exact List.nil_infix
    · exact List.infix_cons ((ih r hr').trans (List.drop_suffix _ cs).isInfix)
  | case3 c cs h hnil ih => exact absurd hnil (runsCI_ne_nil kw cs)
  | case4 c cs h r rs heq ih =>
    intro r' hr'
    rw [runsCI_cons_neg kw c cs h r rs heq] at hr'
    rcases List.mem_cons.1 hr' with rfl | hmem
    · obtain ⟨r0, rs0, heq0, hpre0⟩ := runsCI_head_prefix kw cs
      rw [heq] at heq0
      injection heq0 with h1 h2
      subst h1
      exact (List.cons_prefix_cons.mpr ⟨rfl, hpre0⟩).isInfix
    · exact List.infix_cons (ih r' (heq ▸ List.mem_cons_of_mem r hmem))

theorem runsCI_mem_free (kw : List Char) (hkw : kw ≠ []) (s : List Char) :
    ∀ r ∈ runsCI kw s, ¬ kw <:+: regexFoldL r := by
  induction s using runsCI.induct kw with
  | case1 =>
    intro r hr hocc
    rw [runsCI_nil] at hr
    simp only [List.mem_singleton] at hr
    subst hr
    exact hkw (List.sublist_nil.1 hocc.sublist)
  | case2 c cs h ih =>
    intro r hr
    rw [runsCI_cons_pos kw c cs h] at hr
    rcases List.mem_cons.1 hr with rfl | hr'
    · intro hocc
      exact hkw (List.sublist_nil.1 hocc.sublist)
    · exact ih r hr'
  | case3 c cs h hnil ih => exact absurd hnil (runsCI_ne_nil kw cs)
  | case4 c cs h r rs heq ih =>
    intro r' hr'
    rw [runsCI_cons_neg kw c cs h r rs heq] at hr'
    rcases List.mem_cons.1 hr' with rfl | hmem
    · intro hocc
      obtain ⟨r0, rs0, heq0, hpre0⟩ := runsCI_head_prefix kw cs
      rw [heq] at heq0
      injection heq0 with h1 h2
      subst h1
      subst h2
      rw [regexFoldL, List.map_cons] at hocc
      rcases List.infix_cons_iff.1 hocc with hpre | hinf
      · apply h
        rw [List.isPrefixOf_iff_prefix]
        have hstep : regexFold c :: regexFoldL r <+: regexFold c :: regexFoldL cs :=
          List.cons_prefix_cons.mpr ⟨rfl, hpre0.map regexFold⟩
        have : kw <+: regexFold c :: regexFoldL cs := hpre.trans hstep
        rw [regexFoldL, List.map_cons]
        exact this
      · exact ih r (heq ▸ List.mem_cons_self r rs) hinf
    · exact ih r' (heq ▸ List.mem_cons_of_mem r hmem)

theorem replCI_eq_joinRep (kw : List Char) (s : List Char) :
    replCI kw s = joinRep (runsCI kw s) := by
  induction s using runsCI.induct kw with
  | case1 => rw [replCI_nil, runsCI_nil]; rfl
  | case2 c cs h ih =>
    rw [replCI_cons_pos kw c cs h, runsCI_cons_pos kw c cs h]
    obtain ⟨r, rs, heq⟩ := List.exists_cons_of_ne_nil (runsCI_ne_nil kw (cs.drop (kw.length - 1)))
    rw [ih, heq]
    simp [joinRep]
  | case3 c cs h hnil ih => exact absurd hnil (runsCI_ne_nil kw cs)
  | case4 c cs h r rs heq ih =>
    rw [replCI_cons_neg kw c cs h, runsCI_cons_neg kw c cs h r rs heq, ih, heq]
    cases rs with
    | nil => simp [joinRep]
    | cons r' rs' => simp [joinRep]


theorem prefix_split {α : Type} (kw a b : List α) (h : kw <+: a ++ b) :
    kw <+: a ∨ (a <+: kw ∧ kw.drop a.length <+: b) := by
  induction a generalizing kw with
  | nil => exact Or.inr ⟨List.nil_prefix, by simpa using h⟩
  | cons x a ih =>
    rw [List.cons_append] at h
    rcases List.prefix_cons_iff.1 h with hnil | ⟨t, rfl, ht⟩
    · subst hnil
      exact Or.inl List.nil_prefix
    · rcases ih t ht with h1 | ⟨h2, h3⟩
      · exact Or.inl (List.cons_prefix_cons.mpr ⟨rfl, h1⟩)
      · refine Or.inr ⟨List.cons_prefix_cons.mpr ⟨rfl, h2⟩, ?_⟩
        simpa using h3

theorem infix_append_split {α : Type} (kw a b : List α) (h : kw <:+: a ++ b) :
    kw <:+: a ∨ kw <:+: b ∨
      ∃ k₁ k₂, kw = k₁ ++ k₂ ∧ k₁ ≠ [] ∧ k₂ ≠ [] ∧ k₁ <:+ a ∧ k₂ <+: b := by
  induction a with
  | nil => exact Or.inr (Or.inl (by simpa using h))
  | cons x a ih =>
    rw [List.cons_append] at h
    rcases List.infix_cons_iff.1 h with hpre | hinf
    · have hpre' : kw <+: (x :: a) ++ b := by rwa [List.cons_append]
      rcases prefix_split kw (x :: a) b hpre' with h1 | ⟨h2, h3⟩
      · exact Or.inl h1.isInfix
      · by_cases hk2 : kw.drop (x :: a).length = []
        · left
          have hlen : kw.length ≤ (x :: a).length := List.drop_eq_nil_iff.1 hk2
          have heq : x :: a = kw := h2.eq_of_length_le hlen
          rw [← heq]
        · refine Or.inr (Or.inr ⟨x :: a, kw.drop (x :: a).length,
            (List.prefix_iff_eq_append.1 h2).symm, by simp, hk2, List.suffix_refl _, h3⟩)
    · rcases ih hinf with h1 | h2 | ⟨k₁, k₂, hkw, hk₁, hk₂, hsuf, hpre2⟩
      · exact Or.inl (List.infix_cons h1)
      · exact Or.inr (Or.inl h2)
      · exact Or.inr (Or.inr ⟨k₁, k₂, hkw, hk₁, hk₂, hsuf.trans (List.suffix_cons x a), hpre2⟩)

theorem infix_join_block {kw : List Char} (hnil : kw ≠ [])
    (hlb : '[' ∉ kw) (hrb : ']' ∉ kw) (hrep : ¬ kw <:+: repL) :
    ∀ runs : List (List Char), kw <:+: joinRep runs → ∃ r ∈ runs, kw <:+: r := by
  intro runs
  induction runs with
  | nil =>
    intro h
    exact absurd (List.sublist_nil.1 h.sublist) hnil
  | cons r rest ih =>
    cases rest with
    | nil =>
      intro h
      exact ⟨r, by simp, by simpa [joinRep] using h⟩
    | cons r' rs =>
      intro h
      have hj : joinRep (r :: r' :: rs) = r ++ (repL ++ joinRep (r' :: rs)) := by
        simp [joinRep]
      rw [hj] at h
      rcases infix_append_split kw r (repL ++ joinRep (r' :: rs)) h with
        h1 | h2 | ⟨k₁, k₂, hkw, hk₁, hk₂, hsuf, hpre⟩
      · exact ⟨r, by simp, h1⟩
      · rcases infix_append_split kw repL (joinRep (r' :: rs)) h2 with
          g1 | g2 | ⟨k₁, k₂, hkw, hk₁, hk₂, hsuf, hpre⟩
        · exact absurd g1 hrep
        · obtain ⟨r'', hmem, hocc⟩ := ih g2
          exact ⟨r'', List.mem_cons_of_mem r hmem, hocc⟩
        · exfalso
          have hsplit : repL = "[removed".data ++ [']'] := rfl
          rw [hsplit] at hsuf
          rcases List.suffix_concat_iff.1 hsuf with h0 | ⟨t, hteq, _⟩
          · exact hk₁ h0
          · apply hrb
            rw [hkw]
            exact List.mem_append.2 (Or.inl (hteq ▸ List.mem_append.2 (Or.inr (by simp))))
      · exfalso
        have hrw : repL ++ joinRep (r' :: rs)
            = '[' :: ("removed]".data ++ joinRep (r' :: rs)) := rfl
        rw [hrw] at hpre
        rcases List.prefix_cons_iff.1 hpre with h0 | ⟨t, hteq, _⟩
        · exact hk₂ h0
        · apply hlb
          rw [hkw]
          exact List.mem_append.2 (Or.inr (hteq ▸ List.mem_cons_self _ t))

theorem regexFoldL_append (a b : List Char) : regexFoldL (a ++ b) = regexFoldL a ++ regexFoldL b :=
  List.map_append regexFold a b

theorem regexFoldL_repL : regexFoldL repL = repL := by decide

theorem regexFoldL_joinRep : ∀ runs, regexFoldL (joinRep runs) = joinRep (runs.map regexFoldL) := by
  intro runs
  induction runs with
  | nil => rfl
  | cons r rest ih =>
    cases rest with
    | nil => rfl
    | cons r' rs =>
      have h1 : joinRep (r :: r' :: rs) = r ++ (repL ++ joinRep (r' :: rs)) := by
        simp [joinRep]
      have h2 : joinRep (regexFoldL r :: regexFoldL r' :: rs.map regexFoldL)
          = regexFoldL r ++ (repL ++ joinRep (regexFoldL r' :: rs.map regexFoldL)) := by
        simp [joinRep]
      rw [List.map_cons, List.map_cons, h1, h2, regexFoldL_append, regexFoldL_append, regexFoldL_repL,
        ← List.map_cons regexFoldL r' rs, ih]

abbrev GoodKw (kw : List Char) : Prop :=
  kw ≠ [] ∧ '[' ∉ kw ∧ ']' ∉ kw ∧ ¬ kw <:+: repL

theorem replCI_self_free {kw : List Char} (hgood : GoodKw kw) (t : List Char) :
    ¬ kw <:+: regexFoldL (replCI kw t) := by
  obtain ⟨hnil, hlb, hrb, hrep⟩ := hgood
  rw [replCI_eq_joinRep, regexFoldL_joinRep]
  intro h
  obtain ⟨r', hmem, hocc⟩ := infix_join_block hnil hlb hrb hrep _ h
  obtain ⟨r, hr_mem, rfl⟩ := List.mem_map.1 hmem
  exact runsCI_mem_free kw hnil t r hr_mem hocc

theorem replCI_preserves_free {kw : List Char} (hgood : GoodKw kw) (k : List Char)
    {t : List Char} (hfree : ¬ kw <:+: regexFoldL t) :
    ¬ kw <:+: regexFoldL (replCI k t) := by
  obtain ⟨hnil, hlb, hrb, hrep⟩ := hgood
  rw [replCI_eq_joinRep, regexFoldL_joinRep]
  intro h
  obtain ⟨r', hmem, hocc⟩ := infix_join_block hnil hlb hrb hrep _ h
  obtain ⟨r, hr_mem, rfl⟩ := List.mem_map.1 hmem
  exact hfree (hocc.trans ((runsCI_mem_occursIn k t r hr_mem).map regexFold))

theorem foldl_replCI_preserves {kw : List Char} (hgood : GoodKw kw) :
    ∀ (L : List (List Char)) (t : List Char), ¬ kw <:+: regexFoldL t →
      ¬ kw <:+: regexFoldL (L.foldl (fun acc k => replCI k acc) t) := by
  intro L
  induction L with
  | nil => intro t h; exact h
  | cons k L ih =>
    intro t h
    exact ih (replCI k t) (replCI_preserves_free hgood k h)

theorem foldl_replCI_free :
    ∀ (L : List (List Char)) (t : List Char), (∀ k ∈ L, GoodKw k) →
      ∀ kw ∈ L, ¬ kw <:+: regexFoldL (L.foldl (fun acc k => replCI k acc) t) := by
  intro L
  induction L with
  | nil => intro t _ kw hkw; exact absurd hkw (List.not_mem_nil kw)
  | cons k L ih =>
    intro t hgood kw hkw
    simp only [List.foldl_cons]
    rcases List.mem_cons.1 hkw with rfl | hmem
    · exact foldl_replCI_preserves (hgood kw (List.mem_cons_self kw L)) L (replCI kw t)
        (replCI_self_free (hgood kw (List.mem_cons_self kw L)) t)
    · exact ih (replCI k t) (fun k' h' => hgood k' (List.mem_cons_of_mem k h')) kw hmem


end EduHealth

namespace EduHealth

/-- The characters of `sanitizeText text`, as a fold of `replCI` over the
keyword character lists. -/
theorem sanitizeText_data (text : String) :
    (sanitizeText text).data
      = ((BLOCKLIST_severe ++ BLOCKLIST_moderate).map String.data).foldl
          (fun acc k => replCI k acc) text.data := by
  rw [List.foldl_map]
  rfl

/-- Every character of `replCI kw s` comes from `s` or from the inserted
`[removed]` token. -/
theorem replCI_mem_sub (kw : List Char) (s : List Char) :
    ∀ c ∈ replCI kw s, c ∈ s ∨ c ∈ repL := by
  induction s using replCI.induct kw with
  | case1 =>
    intro c hc
    rw [replCI_nil] at hc
    exact absurd hc (List.not_mem_nil c)
  | case2 c cs h ih =>
    intro x hx
    rw [replCI_cons_pos kw c cs h] at hx
    rcases List.mem_append.1 hx with hx1 | hx2
    · exact Or.inr hx1
    · rcases ih x hx2 with hx3 | hx4
      · exact Or.inl (List.mem_cons_of_mem c (List.mem_of_mem_drop hx3))
      · exact Or.inr hx4
  | case3 c cs h ih =>
    intro x hx
    rw [replCI_cons_neg kw c cs h] at hx
    rcases List.mem_cons.1 hx with rfl | hx2
    · exact Or.inl (List.mem_cons_self x cs)
    · rcases ih x hx2 with hx3 | hx4
      · exact Or.inl (List.mem_cons_of_mem c hx3)
      · exact Or.inr hx4

/-- Every character of the keyword fold comes from the initial text or
from `[removed]`. -/
theorem foldl_replCI_chars :
    ∀ (L : List (List Char)) (t : List Char),
      ∀ c ∈ L.foldl (fun acc k => replCI k acc) t, c ∈ t ∨ c ∈ repL := by
  intro L
  induction L with
  | nil => intro t c hc; exact Or.inl hc
  | cons k L ih =>
    intro t c hc
    simp only [List.foldl_cons] at hc
    rcases ih (replCI k t) c hc with h1 | h2
    · exact replCI_mem_sub k t c h1
    · exact Or.inr h2

/-- Every character of `sanitizeText text` comes from `text` or from
`[removed]`. -/
theorem sanitizeText_chars (text : String) :
    ∀ c ∈ (sanitizeText text).data, c ∈ text.data ∨ c ∈ repL := by
  intro c hc
  rw [sanitizeText_data] at hc
  exact foldl_replCI_chars _ text.data c hc

/-- On ASCII code points, the `toLowerCase` model and the `/i`-regex fold
agree (they part ways only beyond U+007F, e.g. at U+212A). -/
theorem jsCharLower_agree : ∀ n, n < 128 →
    jsCharLower (Char.ofNat n) = regexFold (Char.ofNat n) := by
  decide

/-- For an all-ASCII character list, folding with `jsCharLower` is the
same as folding with `regexFold`. -/
theorem map_jsCharLower_ascii (s : List Char) (h : ∀ c ∈ s, c.toNat < 128) :
    s.map jsCharLower = regexFoldL s := by
  induction s with
  | nil => rfl
  | cons c cs ih =>
    have hc : jsCharLower c = regexFold c := by
      have h0 : c.toNat < 128 := h c (List.mem_cons_self c cs)
      have hcn : Char.ofNat c.toNat = c := Char.ofNat_toNat c
      have := jsCharLower_agree c.toNat h0
      rwa [hcn] at this
    have hcs := ih (fun x hx => h x (List.mem_cons_of_mem c hx))
    simp only [regexFoldL, List.map_cons] at hcs ⊢
    rw [hc, hcs]

/-! ## Claim C10 : sanitized text against the blocklist

The claim fails on the source: `checkBlocklist` folds the text with
`toLowerCase` — which maps U+212A KELVIN SIGN to `k` — while
`sanitizeText`'s non-Unicode `/i` regexes never match a non-ASCII
character against an ASCII keyword letter.  So a text spelling a severe
keyword with a Kelvin sign sanitizes to itself yet is blocked at
severity 10.  For all-ASCII text the two folds agree and the sanitized
text is indeed at most spam-severity. -/

/-- C10 counterexample: `"Kill yourself"` (KELVIN SIGN followed by
`ill yourself`) is left unchanged by `sanitizeText` — no `/gi` keyword
regex matches the Kelvin sign — yet `checkBlocklist` lowercases the
Kelvin sign to `k`, finds `kill yourself`, and returns `blocked = true`
with severity 10, refuting `blocked = false` and `severity ≤ 5`. -/
theorem checkBlocklist_sanitized_counterexample :
    sanitizeText (String.mk (Char.ofNat 0x212A :: "ill yourself".data))
      = String.mk (Char.ofNat 0x212A :: "ill yourself".data) ∧
    (checkBlocklist (sanitizeText
        (String.mk (Char.ofNat 0x212A :: "ill yourself".data)))).blocked = true ∧
    (checkBlocklist (sanitizeText
        (String.mk (Char.ofNat 0x212A :: "ill yourself".data)))).severity = 10 := by
  have hs : sanitizeText (String.mk (Char.ofNat 0x212A :: "ill yourself".data))
      = String.mk (Char.ofNat 0x212A :: "ill yourself".data) := by
    simp +decide [sanitizeText, BLOCKLIST_severe, BLOCKLIST_moderate, replCI]
  refine ⟨hs, ?_, ?_⟩ <;> rw [hs] <;> decide

/-- C10 amended: for every text consisting of ASCII characters (code
points below 128) — in particular any text over the keyword alphabet —
`checkBlocklist (sanitizeText text)` returns `blocked = false` and
severity at most 5: on ASCII text the `toLowerCase` fold used by
`checkBlocklist` agrees with the `/i` canonicalization used by
`sanitizeText`'s regexes, every severe- and moderate-tier occurrence is
replaced by `[removed]`, and since no keyword contains a bracket the
replacement cannot create a new severe or moderate match.  (For general
Unicode text the property fails; see the counterexample.) -/
theorem checkBlocklist_sanitized_ascii (text : String)
    (hascii : ∀ c ∈ text.data, c.toNat < 128) :
    (checkBlocklist (sanitizeText text)).blocked = false ∧
    (checkBlocklist (sanitizeText text)).severity ≤ 5 := by
  have hgood : ∀ k ∈ (BLOCKLIST_severe ++ BLOCKLIST_moderate).map String.data, GoodKw k := by
    decide
  have hsascii : ∀ c ∈ (sanitizeText text).data, c.toNat < 128 := by
    intro c hc
    rcases sanitizeText_chars text c hc with h1 | h2
    · exact hascii c h1
    · have hrep : ∀ c ∈ repL, c.toNat < 128 := by decide
      exact hrep c h2
  have hfree : ∀ kw ∈ BLOCKLIST_severe ++ BLOCKLIST_moderate,
      strContains (jsToLower (sanitizeText text)) kw = false := by
    intro kw hkw
    have h := foldl_replCI_free ((BLOCKLIST_severe ++ BLOCKLIST_moderate).map String.data)
      text.data hgood kw.data (List.mem_map_of_mem String.data hkw)
    rw [← sanitizeText_data] at h
    have hdata : (jsToLower (sanitizeText text)).data
        = (sanitizeText text).data.map jsCharLower := rfl
    show decide (kw.data <:+: (jsToLower (sanitizeText text)).data) = false
    rw [hdata, map_jsCharLower_ascii _ hsascii]
    exact decide_eq_false h
  have hsev : BLOCKLIST_severe.any
      (fun kw => strContains (jsToLower (sanitizeText text)) kw) = false := by
    rw [List.any_eq_false]
    intro kw hkw
    simp [hfree kw (List.mem_append_left _ hkw)]
  have hmod : BLOCKLIST_moderate.any
      (fun kw => strContains (jsToLower (sanitizeText text)) kw) = false := by
    rw [List.any_eq_false]
    intro kw hkw
    simp [hfree kw (List.mem_append_right _ hkw)]
  constructor
  · rw [checkBlocklist_blocked, checkBlocklist_severity, hsev, hmod]
    cases hspam : BLOCKLIST_spam.any
        (fun kw => strContains (jsToLower (sanitizeText text)) kw) <;> simp
  · rw [checkBlocklist_severity, hsev, hmod]
    cases hspam : BLOCKLIST_spam.any
        (fun kw => strContains (jsToLower (sanitizeText text)) kw) <;> simp

/-- C10 amended, witness: `checkBlocklist_sanitized_ascii` at an ASCII
text containing a severe-tier and a moderate-tier keyword. -/
theorem checkBlocklist_sanitized_ascii_witness :
    (checkBlocklist (sanitizeText "Kill yourself, doctors hate this!")).blocked = false ∧
    (checkBlocklist (sanitizeText "Kill yourself, doctors hate this!")).severity ≤ 5 :=
  checkBlocklist_sanitized_ascii "Kill yourself, doctors hate this!" (by decide)

end EduHealth
